import Mathlib

/-!
# MyProfile.js: the profile screen

A shallow embedding of `src/frontend/src/pages/common/MyProfile.js`:

* the JavaScript values the component handles (JSON payloads, `undefined`),
* the four `useState` slots and the three phases of `fetchProfile`
  (the synchronous start, the `try` continuation after a resolved request,
  the `catch` continuation after a rejected one; `finally` runs in both),
* the chain of early `return`s that selects what is rendered,
* the display helpers `getRoleIcon`, `getRoleColor`, `getRoleLabel`,
  `getInitials`.

Strings are sequences of UTF-16 code units, as in ECMAScript, so that
`charAt` and `substring` count what the source counts.
-/

namespace MyProfile

/-! ## JavaScript values -/

/-- A JavaScript string: its UTF-16 code units, in order. -/
abbrev JSString := List Nat

/-- The code units of a string literal of the source. Every literal of
`MyProfile.js` lies in the Basic Multilingual Plane, where a character is one
code unit whose value is its code point. -/
def lit (s : String) : JSString := s.toList.map Char.toNat

/-- The values that reach the component: what `JSON.parse` produces, and
`undefined`. Numbers are the safe integers, of magnitude below `2 ^ 53`: the
component only tests numbers for truthiness and uses them as property keys,
and on these integers `Number::toString` prints plain decimal digits. An object is the list of its
own properties, a key bound at most once. -/
inductive JSVal where
  | undefined
  | null
  | bool (b : Bool)
  | num (n : Int) (safe : n.natAbs < 9007199254740992)
  | str (s : JSString)
  | arr (xs : List JSVal)
  | obj (fields : List (JSString × JSVal))

/-- The exceptions the modelled code can raise. -/
inductive JSError where
  | typeError
deriving DecidableEq, Repr

/-- ECMAScript `ToBoolean`: what `if (x)`, `!x` and `x || y` test. -/
def truthy : JSVal → Bool
  | .undefined => false
  | .null => false
  | .bool b => b
  | .num n _ => n != 0
  | .str s => !s.isEmpty
  | .arr _ => true
  | .obj _ => true

/-- The values on which `?.` short-circuits and on which `.` throws. -/
def isNullish : JSVal → Bool
  | .undefined => true
  | .null => true
  | _ => false

/-- The value bound to `k` among the own properties `fields`, `undefined`
when there is none. -/
def fieldLookup (k : JSString) : List (JSString × JSVal) → JSVal
  | [] => .undefined
  | (k', v) :: rest => if k' = k then v else fieldLookup k rest

/-- Reading `v.k` on a non-nullish `v`, for a key `k` that no built-in
prototype defines (the source reads `response`, `data` and `message` this
way): an object yields its own property, every other value `undefined`. -/
def getProp (v : JSVal) (k : JSString) : JSVal :=
  match v with
  | .obj fields => fieldLookup k fields
  | _ => .undefined

/-! ## Component state and `fetchProfile` -/

/-- The four `useState` slots of `MyProfile`. -/
structure State where
  profile : JSVal
  loading : Bool
  error : JSVal
  dialogOpen : Bool

/-- The initial values passed to `useState`. -/
def State.initial : State :=
  { profile := .null, loading := true, error := .null, dialogOpen := false }

/-- The fallback of the `catch` branch. -/
def failedToLoad : JSString := lit "Failed to load profile"

/-- The argument of `setError` in the `catch` branch:
`err.response?.data?.message || 'Failed to load profile'`.
Reading `.response` on `null` or `undefined` throws. -/
def errorMessage (err : JSVal) : Except JSError JSVal :=
  if isNullish err then .error .typeError
  else
    let response := getProp err (lit "response")
    let data := if isNullish response then .undefined else getProp response (lit "data")
    let message := if isNullish data then .undefined else getProp data (lit "message")
    .ok (if truthy message then message else .str failedToLoad)

/-- The message field carried by the response body of a rejection value:
`undefined` when the value holds no response object, the response no body
object, or the body no `message` property. -/
def bodyMessage : JSVal → JSVal
  | .obj e =>
    match fieldLookup (lit "response") e with
    | .obj r =>
      match fieldLookup (lit "data") r with
      | .obj d => fieldLookup (lit "message") d
      | _ => .undefined
    | _ => .undefined
  | _ => .undefined

/-- The message a rejection is expected to show: the message field of its
response body when that is truthy, the fallback text otherwise. -/
def messageShown (err : JSVal) : JSVal :=
  if truthy (bodyMessage err) then bodyMessage err else .str failedToLoad

/-- The synchronous part of `fetchProfile`, up to the `await`:
`setLoading(true); setError(null)`. -/
def fetchStart (s : State) : State :=
  { s with loading := true, error := .null }

/-- The continuation of `fetchProfile` when the request resolves with a
response whose `data` is `data`: `setProfile(response.data)`, then the
`finally` block `setLoading(false)`. -/
def fetchResolve (data : JSVal) (s : State) : State :=
  { s with profile := data, loading := false }

/-- The continuation of `fetchProfile` when the request rejects with `err`:
the `catch` block calls `setError` with `errorMessage err`; when evaluating
that argument throws, `setError` is not called. The `finally` block
`setLoading(false)` runs in both cases. -/
def fetchReject (err : JSVal) (s : State) : State :=
  match errorMessage err with
  | .ok m => { s with error := m, loading := false }
  | .error _ => { s with loading := false }

/-- How the request awaited by one invocation of `fetchProfile` ends. -/
inductive Outcome where
  | resolved (data : JSVal)
  | rejected (err : JSVal)

/-- One invocation of `fetchProfile` from its first statement to the end of
its `finally` block, no other invocation running in between. -/
def fetchProfile (outcome : Outcome) (s : State) : State :=
  match outcome with
  | .resolved data => fetchResolve data (fetchStart s)
  | .rejected err => fetchReject err (fetchStart s)

/-- The body of `handleDialogClose`: `setDialogOpen(false)`. -/
def handleDialogClose (s : State) : State :=
  { s with dialogOpen := false }

/-- The `onClick` of the View Details button: `setDialogOpen(true)`. -/
def openDialog (s : State) : State :=
  { s with dialogOpen := true }

/-! ## Rendering -/

/-- Which of the four `return`s of the component body is taken. -/
inductive RenderState where
  | Loading
  | Error (message : JSVal)
  | Empty
  | Loaded (profile : JSVal)

/-- The chain `if (loading) … if (error) … if (!profile) …` followed by the
main view. -/
def render (s : State) : RenderState :=
  if s.loading then .Loading
  else if truthy s.error then .Error s.error
  else if !truthy s.profile then .Empty
  else .Loaded s.profile

/-! ## Property keys and table lookup -/

/-- ECMAScript `Number::toString` on a safe integer: decimal digits, with a
leading minus sign below zero. The exponent notation starts at `1e21`, above
every safe integer. -/
def numberToString (n : Int) : JSString :=
  match n with
  | .ofNat k => (Nat.toDigits 10 k).map Char.toNat
  | .negSucc k => 45 :: (Nat.toDigits 10 (k + 1)).map Char.toNat

/-- Whether `k` is among the own properties `fields`. -/
def hasOwn (k : JSString) (fields : List (JSString × JSVal)) : Bool :=
  fields.any (fun kv => kv.1 == k)

mutual
/-- ECMAScript `ToString`. An array goes through `Array.prototype.join`; an
object through `Object.prototype.toString`, unless an own data property
`toString` shadows it, in which case `OrdinaryToPrimitive` finds no callable
method yielding a primitive and throws. -/
def toStringJS : JSVal → Except JSError JSString
  | .undefined => .ok (lit "undefined")
  | .null => .ok (lit "null")
  | .bool b => .ok (if b then lit "true" else lit "false")
  | .num n _ => .ok (numberToString n)
  | .str s => .ok s
  | .arr xs => (elementStrings xs).map (fun parts => [44].intercalate parts)
  | .obj fields =>
    if hasOwn (lit "toString") fields then .error .typeError
    else .ok (lit "[object Object]")
/-- The strings `Array.prototype.join` puts between the commas: the empty
string for `undefined` and `null`, `ToString` of the element otherwise. -/
def elementStrings : List JSVal → Except JSError (List JSString)
  | [] => .ok []
  | x :: xs =>
    match (if isNullish x then .ok [] else toStringJS x), elementStrings xs with
    | .ok a, .ok rest => .ok (a :: rest)
    | .error e, _ => .error e
    | _, .error e => .error e
end

/-- ECMAScript `ToPropertyKey` on the values of `JSVal`: the conversion
applied to `userRole` in `table[userRole]`. -/
def toPropertyKey (v : JSVal) : Except JSError JSString := toStringJS v

/-- The icons the source imports from the icon set and uses as role icons. -/
inductive Icon where
  | AdminIcon
  | PersonIcon
  | SchoolIcon
  | SupervisorIcon
  | AccountBalanceIcon
  | GroupIcon
deriving DecidableEq, Repr

/-- What an expression of the display helpers evaluates to: a data value, a
React element `<SomeIcon />`, or a member of `Object.prototype` (a built-in
function or object), named by the property under which it is found. -/
inductive Ref where
  | data (v : JSVal)
  | element (icon : Icon)
  | builtin (name : JSString)

/-- `ToBoolean` on `Ref`: every object and function is truthy. -/
def Ref.truthy : Ref → Bool
  | .data v => MyProfile.truthy v
  | .element _ => true
  | .builtin _ => true

/-- The property names of `Object.prototype`, the prototype of every object
literal (ECMAScript 2023, sections 20.1.3 and B.2.2). -/
def objectPrototypeKeys : List JSString :=
  [lit "constructor", lit "hasOwnProperty", lit "isPrototypeOf",
   lit "propertyIsEnumerable", lit "toLocaleString", lit "toString",
   lit "valueOf", lit "__proto__", lit "__defineGetter__",
   lit "__defineSetter__", lit "__lookupGetter__", lit "__lookupSetter__"]

/-- The expression `table[key]` for an object literal `table`: the own
property when there is one, else the property inherited from
`Object.prototype`, else `undefined`. -/
def member (table : List (JSString × Ref)) (key : JSString) : Ref :=
  match table.lookup key with
  | some r => r
  | none => if key ∈ objectPrototypeKeys then .builtin key else .data .undefined

/-- The object literal `roleIcons`. -/
def roleIcons : List (JSString × Ref) :=
  [(lit "admin", .element .AdminIcon),
   (lit "superadmin", .element .AdminIcon),
   (lit "teacher", .element .PersonIcon),
   (lit "student", .element .SchoolIcon),
   (lit "hod", .element .SupervisorIcon),
   (lit "dean", .element .AccountBalanceIcon),
   (lit "cc", .element .GroupIcon)]

/-- The object literal `roleColors`. -/
def roleColors : List (JSString × Ref) :=
  [(lit "admin", .data (.str (lit "#d32f2f"))),
   (lit "superadmin", .data (.str (lit "#7b1fa2"))),
   (lit "teacher", .data (.str (lit "#1976d2"))),
   (lit "student", .data (.str (lit "#388e3c"))),
   (lit "hod", .data (.str (lit "#f57c00"))),
   (lit "dean", .data (.str (lit "#5d4037"))),
   (lit "cc", .data (.str (lit "#0097a7")))]

/-- The object literal `roleLabels`. -/
def roleLabels : List (JSString × Ref) :=
  [(lit "admin", .data (.str (lit "Administrator"))),
   (lit "superadmin", .data (.str (lit "Super Administrator"))),
   (lit "teacher", .data (.str (lit "Teacher"))),
   (lit "student", .data (.str (lit "Student"))),
   (lit "hod", .data (.str (lit "Head of Department"))),
   (lit "dean", .data (.str (lit "Dean"))),
   (lit "cc", .data (.str (lit "Course Coordinator")))]

/-- The function `getRoleIcon`: `roleIcons[userRole] || <PersonIcon />`. -/
def getRoleIcon (userRole : JSVal) : Except JSError Ref :=
  match toPropertyKey userRole with
  | .error e => .error e
  | .ok key =>
    let found := member roleIcons key
    .ok (if found.truthy then found else .element .PersonIcon)

/-- The function `getRoleColor`: `roleColors[userRole] || '#757575'`. -/
def getRoleColor (userRole : JSVal) : Except JSError Ref :=
  match toPropertyKey userRole with
  | .error e => .error e
  | .ok key =>
    let found := member roleColors key
    .ok (if found.truthy then found else .data (.str (lit "#757575")))

/-- The function `getRoleLabel`:
`roleLabels[userRole] || userRole?.toUpperCase()`. The right operand is
`undefined` on a nullish `userRole`, calls `String.prototype.toUpperCase`
(the parameter `toUpperCase`) on a string, and throws on every other value,
which has no callable `toUpperCase`. -/
def getRoleLabel (toUpperCase : JSString → JSString) (userRole : JSVal) :
    Except JSError Ref :=
  match toPropertyKey userRole with
  | .error e => .error e
  | .ok key =>
    let found := member roleLabels key
    if found.truthy then .ok found
    else if isNullish userRole then .ok (.data .undefined)
    else
      match userRole with
      | .str s => .ok (.data (.str (toUpperCase s)))
      | _ => .error .typeError

/-- The map `String.prototype.toUpperCase` computes on a string of ASCII code
units: the letters `a` to `z` move to `A` to `Z`. -/
def asciiUpper (s : JSString) : JSString :=
  s.map (fun c => if 97 ≤ c ∧ c ≤ 122 then c - 32 else c)

/-! ## Initials -/

/-- The method call `s.split(sep)` for a separator of one code unit. -/
def split (sep : Nat) : JSString → List JSString
  | [] => [[]]
  | c :: cs =>
    if c = sep then [] :: split sep cs
    else
      match split sep cs with
      | [] => [[c]]
      | w :: ws => (c :: w) :: ws

/-- The method call `word.charAt(0)`: the first code unit as a string, or the
empty string. -/
def charAt0 (word : JSString) : JSString := word.take 1

/-- The function `getInitials`. A truthy `name` that is not a string has no
callable `split`, so the call throws. -/
def getInitials (toUpperCase : JSString → JSString) (name : JSVal) :
    Except JSError JSString :=
  if !truthy name then .ok (lit "?")
  else
    match name with
    | .str s => .ok ((toUpperCase ((split 32 s).map charAt0).flatten).take 2)
    | _ => .error .typeError

/-- The non-empty maximal runs of code units that are not separators. -/
def tokens (isSep : Nat → Bool) : JSString → List JSString
  | [] => []
  | c :: cs =>
    if isSep c then tokens isSep cs
    else
      match cs with
      | [] => [[c]]
      | d :: _ =>
        if isSep d then [c] :: tokens isSep cs
        else
          match tokens isSep cs with
          | [] => [[c]]
          | t :: ts => (c :: t) :: ts

/-- ECMAScript white space and line terminators, what `\s` and `trim`
recognise. -/
def isWhiteSpace (c : Nat) : Bool :=
  c ∈ [9, 10, 11, 12, 13, 32, 160, 5760, 8192, 8193, 8194, 8195, 8196, 8197,
       8198, 8199, 8200, 8201, 8202, 8232, 8233, 8239, 8287, 12288, 65279]

/-- The specification of `initials(name)`, parametric in what separates
tokens: `?` for an absent or empty name, otherwise the first two code units
of the upper-cased concatenation of the first code unit of every token. -/
def initialsOf (isSep : Nat → Bool) (toUpperCase : JSString → JSString) :
    Option JSString → JSString
  | none => lit "?"
  | some [] => lit "?"
  | some s => (toUpperCase ((tokens isSep s).map (fun t => t.take 1)).flatten).take 2

/-- The specification of `initials(name)` in the words of the specification:
tokens are separated by white space. -/
def initialsSpec (toUpperCase : JSString → JSString) : Option JSString → JSString :=
  initialsOf isWhiteSpace toUpperCase

/-! ## Traces of fetches -/

/-- What can happen to the fetch lifecycle: an invocation of `fetchProfile`
runs to its `await`, or the request of an earlier invocation completes. -/
inductive Event where
  | start
  | resolve (data : JSVal)
  | reject (err : JSVal)

/-- One event applied to the component state. -/
def step (s : State) : Event → State
  | .start => fetchStart s
  | .resolve data => fetchResolve data s
  | .reject err => fetchReject err s

/-- A sequence of events applied in order. -/
def run (s : State) (events : List Event) : State := events.foldl step s

/-- Whether the event is the completion of a request. -/
def Event.isCompletion : Event → Bool
  | .start => false
  | _ => true

/-- Whether the event is a completion that writes an error: a rejection
whose value is not nullish. -/
def Event.writesError : Event → Bool
  | .reject err => !isNullish err
  | _ => false

/-! ## The screen driven through its controls -/

/-- The component together with the number of requests awaiting completion. -/
structure Screen where
  ui : State
  inFlight : Nat

/-- What the user and the network can do to the mounted screen. -/
inductive UIEvent where
  | clickFetch
  | resolve (data : JSVal)
  | reject (err : JSVal)
  | viewDetails
  | closeDetails

/-- The screen after mounting: the first render uses the initial state and
the effect `useEffect(() => { fetchProfile(); }, [])` starts one fetch. -/
def Screen.mounted : Screen :=
  { ui := fetchStart State.initial, inFlight := 1 }

/-- Whether a control with `onClick={fetchProfile}` is rendered: the Retry
button of the error branch or the Refresh button of the main view. -/
def fetchControlShown (s : State) : Bool :=
  match render s with
  | .Error _ => true
  | .Loaded _ => true
  | _ => false

/-- Whether the main view, which holds the View Details button and the
dialog, is rendered. -/
def mainViewShown (s : State) : Bool :=
  match render s with
  | .Loaded _ => true
  | _ => false

/-- One event on the screen, `none` when the event cannot happen: a click
needs its control to be rendered, a completion needs a request in flight. -/
def uiStep (sc : Screen) : UIEvent → Option Screen
  | .clickFetch =>
    if fetchControlShown sc.ui then
      some { ui := fetchStart sc.ui, inFlight := sc.inFlight + 1 }
    else none
  | .resolve data =>
    if 0 < sc.inFlight then
      some { ui := fetchResolve data sc.ui, inFlight := sc.inFlight - 1 }
    else none
  | .reject err =>
    if 0 < sc.inFlight then
      some { ui := fetchReject err sc.ui, inFlight := sc.inFlight - 1 }
    else none
  | .viewDetails =>
    if mainViewShown sc.ui then some { sc with ui := openDialog sc.ui } else none
  | .closeDetails =>
    if mainViewShown sc.ui then some { sc with ui := handleDialogClose sc.ui } else none

/-- A sequence of events on the screen, `none` as soon as one cannot happen. -/
def uiRun (sc : Screen) : List UIEvent → Option Screen
  | [] => some sc
  | e :: es =>
    match uiStep sc e with
    | some sc' => uiRun sc' es
    | none => none

/-! ## Theorems: the fetch lifecycle -/

theorem truthy_failedToLoad : truthy (.str failedToLoad) = true := by rfl

/-- On a rejection value that is not nullish the `catch` branch computes the
body message when that is truthy and the fallback otherwise. -/
theorem errorMessage_eq (err : JSVal) (h : isNullish err = false) :
    errorMessage err = .ok (messageShown err) := by
  unfold messageShown
  cases err with
  | undefined => simp [isNullish] at h
  | null => simp [isNullish] at h
  | obj e =>
    simp only [errorMessage, bodyMessage, getProp, isNullish]
    cases fieldLookup (lit "response") e with
    | obj r =>
      simp only [getProp, isNullish]
      cases fieldLookup (lit "data") r <;> simp [getProp, isNullish, truthy]
    | _ => simp [getProp, isNullish, truthy]
  | _ => simp [errorMessage, bodyMessage, getProp, isNullish, truthy]

theorem truthy_orFallback (x : JSVal) :
    truthy (if truthy x then x else .str failedToLoad) = true := by
  cases h : truthy x
  · simpa [h] using truthy_failedToLoad
  · simp [h]

/-- The value written by the `catch` branch is truthy. -/
theorem errorMessage_truthy (err m : JSVal) (h : errorMessage err = .ok m) :
    truthy m = true := by
  unfold errorMessage at h
  split at h
  · cases h
  · simp only [Except.ok.injEq] at h
    rw [← h]
    exact truthy_orFallback _

theorem messageShown_truthy (err : JSVal) : truthy (messageShown err) = true :=
  truthy_orFallback _

theorem render_of_error (s : State) (hl : s.loading = false) (he : truthy s.error = true) :
    render s = .Error s.error := by
  simp [render, hl, he]

theorem render_of_no_error (s : State) (hl : s.loading = false)
    (he : truthy s.error = false) :
    render s = if truthy s.profile then .Loaded s.profile else .Empty := by
  cases hp : truthy s.profile <;> simp [render, hl, he, hp]

theorem fetchReject_of_ok (err m : JSVal) (s : State) (h : errorMessage err = .ok m) :
    fetchReject err s = { s with error := m, loading := false } := by
  simp [fetchReject, h]

/-- C1: for every state and every payload `p`, starting `fetchProfile` and
then resolving its request with `p` gives `loading = false`, `error = null`
and the held profile exactly `p`; what is rendered is then `Loaded p` when
`p` is truthy and `Empty` otherwise, hence never the error branch. -/
theorem fetch_success_replaces_profile (s : State) (p : JSVal) :
    (fetchProfile (.resolved p) s).loading = false ∧
    (fetchProfile (.resolved p) s).error = .null ∧
    (fetchProfile (.resolved p) s).profile = p ∧
    render (fetchProfile (.resolved p) s) = (if truthy p then .Loaded p else .Empty) ∧
    (∀ m, render (fetchProfile (.resolved p) s) ≠ .Error m) := by
  have hr := render_of_no_error (fetchProfile (.resolved p) s) rfl rfl
  refine ⟨rfl, rfl, rfl, hr, ?_⟩
  intro m
  rw [hr]
  split <;> simp

theorem reject_render (s : State) (err : JSVal) (h : isNullish err = false) :
    render (fetchReject err s) = .Error (messageShown err) := by
  rw [fetchReject_of_ok err _ s (errorMessage_eq err h)]
  exact render_of_error _ rfl (messageShown_truthy err)

/-- C2, as the claim states it, fails: a rejection whose response body is
`{message: ""}` carries a message field, yet the component shows the fallback
text and not that message. -/
theorem reject_empty_message_shows_fallback :
    render (fetchProfile
        (.rejected (.obj [(lit "response", .obj [(lit "data",
          .obj [(lit "message", .str [])])])]))
        State.initial)
      = .Error (.str (lit "Failed to load profile")) ∧
    render (fetchProfile
        (.rejected (.obj [(lit "response", .obj [(lit "data",
          .obj [(lit "message", .str [])])])]))
        State.initial)
      ≠ .Error (.str []) := by
  constructor
  · rfl
  · intro h
    have h2 : RenderState.Error (.str (lit "Failed to load profile")) = .Error (.str []) := h
    simp [lit] at h2

/-- C2, amended: after a fetch that rejects with a value that is not nullish,
`loading` is false; when the response body carries a truthy message field
`m` the component shows `Error m`; when there is no response, no body, no
message field, or the message is falsy, it shows
`Error "Failed to load profile"`. -/
theorem reject_shows_message_or_fallback (s : State) (err : JSVal)
    (h : isNullish err = false) :
    (fetchProfile (.rejected err) s).loading = false ∧
    (truthy (bodyMessage err) = true →
      render (fetchProfile (.rejected err) s) = .Error (bodyMessage err)) ∧
    (truthy (bodyMessage err) = false →
      render (fetchProfile (.rejected err) s)
        = .Error (.str (lit "Failed to load profile"))) := by
  have hs : fetchProfile (.rejected err) s
      = { fetchStart s with error := messageShown err, loading := false } :=
    fetchReject_of_ok err _ (fetchStart s) (errorMessage_eq err h)
  have hr : render (fetchProfile (.rejected err) s) = .Error (messageShown err) := by
    rw [hs]
    exact render_of_error _ rfl (messageShown_truthy err)
  refine ⟨by rw [hs], ?_, ?_⟩
  · intro ht
    rw [hr, messageShown, if_pos ht]
  · intro hf
    rw [hr, messageShown, hf]
    rfl

/-- The rejection body `{message: "Token expired"}` shows that message; a
rejection without a response shows the fallback. -/
theorem reject_shows_message_or_fallback_witness :
    (fetchProfile
        (.rejected (.obj [(lit "response", .obj [(lit "data",
          .obj [(lit "message", .str (lit "Token expired"))])])]))
        State.initial).loading = false ∧
    render (fetchProfile
        (.rejected (.obj [(lit "response", .obj [(lit "data",
          .obj [(lit "message", .str (lit "Token expired"))])])]))
        State.initial)
      = .Error (.str (lit "Token expired")) ∧
    render (fetchProfile (.rejected (.obj [(lit "code", .str (lit "ERR_NETWORK"))]))
        State.initial)
      = .Error (.str (lit "Failed to load profile")) :=
  ⟨(reject_shows_message_or_fallback State.initial
      (.obj [(lit "response", .obj [(lit "data",
        .obj [(lit "message", .str (lit "Token expired"))])])]) rfl).1,
   (reject_shows_message_or_fallback State.initial
      (.obj [(lit "response", .obj [(lit "data",
        .obj [(lit "message", .str (lit "Token expired"))])])]) rfl).2.1 rfl,
   (reject_shows_message_or_fallback State.initial
      (.obj [(lit "code", .str (lit "ERR_NETWORK"))]) rfl).2.2 rfl⟩

/-- C7, as the claim states it, fails: when the request rejects with `null`,
reading `err.response` throws inside the `catch` block, `setError` is not
reached and `finally` clears `loading`; with a profile still held the main
view is rendered with the stale profile, not the error branch. -/
theorem null_rejection_shows_stale_profile :
    render (fetchProfile (.rejected .null)
      { profile := .obj [(lit "name", .str (lit "Jane Doe"))],
        loading := false, error := .null, dialogOpen := false })
      = .Loaded (.obj [(lit "name", .str (lit "Jane Doe"))]) ∧
    ¬ ∃ m, render (fetchProfile (.rejected .null)
      { profile := .obj [(lit "name", .str (lit "Jane Doe"))],
        loading := false, error := .null, dialogOpen := false })
      = .Error m := by
  constructor
  · rfl
  · rintro ⟨m, h⟩
    have h2 : RenderState.Loaded (.obj [(lit "name", .str (lit "Jane Doe"))])
        = .Error m := h
    cases h2

/-- C7, amended: a failed fetch leaves the held profile (and the dialog flag)
untouched, whatever the rejection value; when the rejection value is not
nullish, the error branch is rendered with the message after it, not the
main view, whatever profile is still held; what is rendered is decided by
`loading`, then `error`, then the absence of a profile, and is exactly one
of the four cases. -/
theorem failed_fetch_keeps_profile_shows_error (s : State) (err : JSVal) :
    (fetchReject err s).profile = s.profile ∧
    (fetchReject err s).dialogOpen = s.dialogOpen ∧
    (fetchProfile (.rejected err) s).profile = s.profile ∧
    (fetchProfile (.rejected err) s).loading = false ∧
    (isNullish err = false →
      render (fetchProfile (.rejected err) s) = .Error (messageShown err) ∧
      (∀ p, render (fetchProfile (.rejected err) s) ≠ .Loaded p)) ∧
    (∀ t : State, render t = .Loading ↔ t.loading = true) ∧
    (∀ (t : State) (m : JSVal), render t = .Error m ↔
      t.loading = false ∧ truthy t.error = true ∧ m = t.error) ∧
    (∀ t : State, render t = .Empty ↔
      t.loading = false ∧ truthy t.error = false ∧ truthy t.profile = false) ∧
    (∀ (t : State) (p : JSVal), render t = .Loaded p ↔
      t.loading = false ∧ truthy t.error = false ∧ truthy t.profile = true ∧
        p = t.profile) := by
  have hframe : ∀ u : State, (fetchReject err u).profile = u.profile ∧
      (fetchReject err u).dialogOpen = u.dialogOpen ∧
      (fetchReject err u).loading = false := by
    intro u
    unfold fetchReject
    split <;> exact ⟨rfl, rfl, rfl⟩
  refine ⟨(hframe s).1, (hframe s).2.1, (hframe (fetchStart s)).1,
    (hframe (fetchStart s)).2.2, ?_, ?_, ?_, ?_, ?_⟩
  · intro h
    have hr : render (fetchProfile (.rejected err) s) = .Error (messageShown err) :=
      reject_render (fetchStart s) err h
    refine ⟨hr, ?_⟩
    intro p; rw [hr]; simp
  · intro t
    unfold render
    cases t.loading <;> simp
    split <;> [simp; (split <;> simp)]
  · intro t m
    unfold render
    cases t.loading <;> cases truthy t.error <;> simp
    · split <;> simp
    · exact eq_comm
  · intro t
    unfold render
    cases t.loading <;> cases truthy t.error <;> cases truthy t.profile <;> simp
  · intro t p
    unfold render
    cases t.loading <;> cases truthy t.error <;> cases truthy t.profile <;> simp
    exact eq_comm

/-- A failed refresh while a profile is held shows the error, not the stale
profile. -/
theorem failed_fetch_keeps_profile_shows_error_witness :
    render (fetchProfile (.rejected (.obj []))
      { profile := .obj [(lit "name", .str (lit "Jane Doe"))],
        loading := false, error := .null, dialogOpen := true })
      = .Error (.str (lit "Failed to load profile")) :=
  ((failed_fetch_keeps_profile_shows_error
    { profile := .obj [(lit "name", .str (lit "Jane Doe"))],
      loading := false, error := .null, dialogOpen := true }
    (.obj [])).2.2.2.2.1 rfl).1

/-- C8: closing the dialog sets `dialogOpen` to false from every state,
changes nothing else and is idempotent; opening sets only `dialogOpen` to
true; no phase of `fetchProfile` changes `dialogOpen`. -/
theorem dialog_flag_independent_of_fetch (s : State) (p err : JSVal) :
    (handleDialogClose s).dialogOpen = false ∧
    (handleDialogClose s).profile = s.profile ∧
    (handleDialogClose s).loading = s.loading ∧
    (handleDialogClose s).error = s.error ∧
    handleDialogClose (handleDialogClose s) = handleDialogClose s ∧
    (openDialog s).dialogOpen = true ∧
    (openDialog s).profile = s.profile ∧
    (openDialog s).loading = s.loading ∧
    (openDialog s).error = s.error ∧
    (fetchStart s).dialogOpen = s.dialogOpen ∧
    (fetchResolve p s).dialogOpen = s.dialogOpen ∧
    (fetchReject err s).dialogOpen = s.dialogOpen := by
  refine ⟨rfl, rfl, rfl, rfl, rfl, rfl, rfl, rfl, rfl, rfl, rfl, ?_⟩
  unfold fetchReject
  split <;> rfl

/-! ## Theorems: overlapping fetches -/

theorem run_append (s : State) (a b : List Event) :
    run s (a ++ b) = run (run s a) b := by
  simp [run, List.foldl_append]

theorem run_snoc (s : State) (t : List Event) (e : Event) :
    run s (t ++ [e]) = step (run s t) e := by
  simp [run, List.foldl_append]

theorem run_cons (s : State) (e : Event) (t : List Event) :
    run s (e :: t) = run (step s e) t := rfl

theorem fetchReject_nullish (err : JSVal) (s : State) (h : isNullish err = true) :
    fetchReject err s = { s with loading := false } := by
  simp [fetchReject, errorMessage, h]

/-- An event that writes no error keeps a null error null. -/
theorem step_error_null (s : State) (e : Event) (hs : s.error = .null)
    (he : e.writesError = false) : (step s e).error = .null := by
  cases e with
  | start => rfl
  | resolve data => exact hs
  | reject err =>
    have hn : isNullish err = true := by simpa [Event.writesError] using he
    simp [step, fetchReject_nullish err s hn, hs]

theorem run_error_null (cs : List Event) (s : State) (hs : s.error = .null)
    (hcs : ∀ e ∈ cs, e.writesError = false) : (run s cs).error = .null := by
  induction cs generalizing s with
  | nil => exact hs
  | cons e cs ih =>
    rw [run_cons]
    exact ih _ (step_error_null s e hs (hcs e (List.mem_cons_self _ _)))
      (fun x hx => hcs x (List.mem_cons_of_mem _ hx))

/-- A completion that writes no error leaves the error slot as it is. -/
theorem step_error_kept (s : State) (e : Event) (hc : e.isCompletion = true)
    (he : e.writesError = false) : (step s e).error = s.error := by
  cases e with
  | start => simp [Event.isCompletion] at hc
  | resolve data => rfl
  | reject err =>
    have hn : isNullish err = true := by simpa [Event.writesError] using he
    simp [step, fetchReject_nullish err s hn]

theorem run_error_kept (cs : List Event) (s : State)
    (hcs : ∀ e ∈ cs, e.isCompletion = true ∧ e.writesError = false) :
    (run s cs).error = s.error := by
  induction cs generalizing s with
  | nil => rfl
  | cons e cs ih =>
    rw [run_cons, ih _ (fun x hx => hcs x (List.mem_cons_of_mem _ hx))]
    exact step_error_kept s e (hcs e (List.mem_cons_self _ _)).1
      (hcs e (List.mem_cons_self _ _)).2

theorem fetchReject_error (err : JSVal) (s : State) (h : isNullish err = false) :
    (fetchReject err s).error = messageShown err := by
  rw [fetchReject_of_ok err _ s (errorMessage_eq err h)]

/-- C3, as the claim states it, fails: two invocations are in flight, the
first completion is a rejection and the last one a success with a profile;
the component ends in the error branch with the message of the earlier
rejection, not in `Loaded`. -/
theorem earlier_rejection_outlives_last_success :
    render (run State.initial
      [.start, .start,
       .reject (.obj [(lit "response", .obj [(lit "data",
          .obj [(lit "message", .str (lit "Token expired"))])])]),
       .resolve (.obj [(lit "name", .str (lit "Jane Doe"))])])
      = .Error (.str (lit "Token expired")) ∧
    render (run State.initial
      [.start, .start,
       .reject (.obj [(lit "response", .obj [(lit "data",
          .obj [(lit "message", .str (lit "Token expired"))])])]),
       .resolve (.obj [(lit "name", .str (lit "Jane Doe"))])])
      ≠ .Loaded (.obj [(lit "name", .str (lit "Jane Doe"))]) := by
  constructor
  · rfl
  · intro h
    have h2 : RenderState.Error (.str (lit "Token expired"))
        = .Loaded (.obj [(lit "name", .str (lit "Jane Doe"))]) := h
    cases h2

/-- C3, amended: once the last completion has arrived, (1) if it is a
rejection with a value that is not nullish, the error branch is rendered
with its message, whatever happened before; (2) if it is a success with
payload `p` and no completion since the last start wrote an error, `Loaded p`
or `Empty` is rendered; (3) if it is a success but a completion since the
last start was a rejection, the error branch is rendered with the message of
the latest such rejection: a success does not clear the error. -/
theorem final_render_after_overlapping_fetches (s : State) (t cs : List Event)
    (p err : JSVal) :
    (isNullish err = false →
      render (run s (t ++ [.reject err])) = .Error (messageShown err)) ∧
    ((∀ e ∈ cs, e.writesError = false) →
      render (run s (t ++ .start :: cs ++ [.resolve p]))
        = (if truthy p then .Loaded p else .Empty)) ∧
    (isNullish err = false →
      (∀ e ∈ cs, e.isCompletion = true ∧ e.writesError = false) →
      render (run s (t ++ .reject err :: cs ++ [.resolve p]))
        = .Error (messageShown err)) := by
  refine ⟨?_, ?_, ?_⟩
  · intro h
    rw [run_snoc]
    exact reject_render _ err h
  · intro hcs
    rw [run_snoc, run_append, run_cons]
    have he : (run (step (run s t) .start) cs).error = .null :=
      run_error_null cs _ rfl hcs
    have ht : truthy (fetchResolve p (run (step (run s t) .start) cs)).error
        = false := by
      show truthy (run (step (run s t) .start) cs).error = false
      rw [he]; rfl
    exact render_of_no_error (fetchResolve p _) rfl ht
  · intro h hcs
    rw [run_snoc, run_append, run_cons]
    have he : (run (step (run s t) (.reject err)) cs).error = messageShown err := by
      rw [run_error_kept cs _ hcs]
      exact fetchReject_error err _ h
    have ht : truthy (fetchResolve p (run (step (run s t) (.reject err)) cs)).error
        = true := by
      show truthy (run (step (run s t) (.reject err)) cs).error = true
      rw [he]; exact messageShown_truthy err
    have hr := render_of_error (fetchResolve p _) rfl ht
    rw [show step (run (step (run s t) (.reject err)) cs) (.resolve p)
      = fetchResolve p (run (step (run s t) (.reject err)) cs) from rfl, hr]
    show RenderState.Error (run (step (run s t) (.reject err)) cs).error = _
    rw [he]

/-- The three cases of the amended C3 on concrete traces with two requests
in flight: rejection last; successes only; a rejection followed by
successes. -/
theorem final_render_after_overlapping_fetches_witness :
    render (run State.initial ([.start, .start, .resolve (.num 1 (by decide))]
        ++ [.reject (.obj [])]))
      = .Error (.str (lit "Failed to load profile")) ∧
    render (run State.initial
      ([] ++ .start :: [.start, .resolve .null]
        ++ [.resolve (.obj [(lit "name", .str (lit "Jane Doe"))])]))
      = .Loaded (.obj [(lit "name", .str (lit "Jane Doe"))]) ∧
    render (run State.initial
      ([.start, .start] ++ .reject (.obj []) :: [.resolve .null]
        ++ [.resolve (.obj [(lit "name", .str (lit "Jane Doe"))])]))
      = .Error (.str (lit "Failed to load profile")) :=
  ⟨(final_render_after_overlapping_fetches State.initial
      [.start, .start, .resolve (.num 1 (by decide))] [] .null (.obj [])).1 rfl,
   (final_render_after_overlapping_fetches State.initial []
      [.start, .resolve .null] (.obj [(lit "name", .str (lit "Jane Doe"))]) .null).2.1
      (by
        intro e he
        rcases List.mem_cons.mp he with h | h
        · subst h; rfl
        · rw [List.mem_singleton] at h; subst h; rfl),
   (final_render_after_overlapping_fetches State.initial [.start, .start]
      [.resolve .null] (.obj [(lit "name", .str (lit "Jane Doe"))]) (.obj [])).2.2 rfl
      (by
        intro e he
        rw [List.mem_singleton] at he
        subst he
        exact ⟨rfl, rfl⟩)⟩

/-! ## Theorems: the screen driven through its controls -/

/-- The invariant of the mounted screen: loading with one request in flight,
or not loading with none. -/
theorem uiStep_invariant (sc sc' : Screen) (e : UIEvent)
    (hinv : (sc.ui.loading = true ∧ sc.inFlight = 1) ∨
            (sc.ui.loading = false ∧ sc.inFlight = 0))
    (hstep : uiStep sc e = some sc') :
    (sc'.ui.loading = true ∧ sc'.inFlight = 1) ∨
    (sc'.ui.loading = false ∧ sc'.inFlight = 0) := by
  have hshown : ∀ u : State, fetchControlShown u = true → u.loading = false := by
    intro u hu
    cases hl : u.loading
    · rfl
    · simp [fetchControlShown, render, hl] at hu
  cases e with
  | clickFetch =>
    simp only [uiStep] at hstep
    split at hstep
    · rename_i hc
      have hl := hshown _ hc
      cases hstep
      rcases hinv with ⟨h1, _⟩ | ⟨_, h0⟩
      · rw [hl] at h1; cases h1
      · left; exact ⟨rfl, by simp [h0]⟩
    · cases hstep
  | resolve data =>
    simp only [uiStep] at hstep
    split at hstep
    · rename_i hpos
      cases hstep
      rcases hinv with ⟨_, h1⟩ | ⟨_, h0⟩
      · right; exact ⟨rfl, by simp [h1]⟩
      · omega
    · cases hstep
  | reject err =>
    simp only [uiStep] at hstep
    split at hstep
    · rename_i hpos
      cases hstep
      have hl : (fetchReject err sc.ui).loading = false := by
        unfold fetchReject; split <;> rfl
      rcases hinv with ⟨_, h1⟩ | ⟨_, h0⟩
      · right; exact ⟨hl, by simp [h1]⟩
      · omega
    · cases hstep
  | viewDetails =>
    simp only [uiStep] at hstep
    split at hstep
    · cases hstep; exact hinv
    · cases hstep
  | closeDetails =>
    simp only [uiStep] at hstep
    split at hstep
    · cases hstep; exact hinv
    · cases hstep

theorem uiRun_invariant (events : List UIEvent) (sc sc' : Screen)
    (hinv : (sc.ui.loading = true ∧ sc.inFlight = 1) ∨
            (sc.ui.loading = false ∧ sc.inFlight = 0))
    (hrun : uiRun sc events = some sc') :
    (sc'.ui.loading = true ∧ sc'.inFlight = 1) ∨
    (sc'.ui.loading = false ∧ sc'.inFlight = 0) := by
  induction events generalizing sc with
  | nil =>
    simp only [uiRun, Option.some.injEq] at hrun
    rw [← hrun]; exact hinv
  | cons e es ih =>
    simp only [uiRun] at hrun
    split at hrun
    · rename_i sc1 h1
      exact ih sc1 (uiStep_invariant sc sc1 e hinv h1) hrun
    · cases hrun

/-- C9: in every state the mounted screen reaches through clicks on Retry or
Refresh (possible only while the control is rendered), completions of
requests in flight and the dialog buttons, `loading` is true exactly when
one request is in flight and false exactly when none is; so at most one
request is ever in flight. -/
theorem at_most_one_fetch_in_flight (events : List UIEvent) (sc : Screen)
    (h : uiRun Screen.mounted events = some sc) :
    (sc.ui.loading = true ↔ sc.inFlight = 1) ∧
    (sc.ui.loading = false ↔ sc.inFlight = 0) ∧
    sc.inFlight ≤ 1 := by
  have hinv := uiRun_invariant events Screen.mounted sc (Or.inl ⟨rfl, rfl⟩) h
  rcases hinv with ⟨hl, hn⟩ | ⟨hl, hn⟩
  · refine ⟨⟨fun _ => hn, fun _ => hl⟩, ⟨?_, ?_⟩, by omega⟩
    · intro hf; rw [hl] at hf; cases hf
    · intro h0; omega
  · refine ⟨⟨?_, ?_⟩, ⟨fun _ => hn, fun _ => hl⟩, by omega⟩
    · intro ht; rw [hl] at ht; cases ht
    · intro h1; omega

/-- A failed first load, a retry that succeeds, the dialog opened and a
refresh: one request in flight at the end. -/
theorem at_most_one_fetch_in_flight_witness :
    uiRun Screen.mounted
        [.reject (.obj []), .clickFetch,
         .resolve (.obj [(lit "name", .str (lit "Jane Doe"))]), .viewDetails,
         .clickFetch]
      = some { ui := { profile := .obj [(lit "name", .str (lit "Jane Doe"))],
                       loading := true, error := .null, dialogOpen := true },
               inFlight := 1 } ∧
    ((true = true ↔ 1 = 1) ∧ (true = false ↔ 1 = 0) ∧ 1 ≤ 1) :=
  ⟨rfl, at_most_one_fetch_in_flight
    [.reject (.obj []), .clickFetch,
     .resolve (.obj [(lit "name", .str (lit "Jane Doe"))]), .viewDetails,
     .clickFetch]
    { ui := { profile := .obj [(lit "name", .str (lit "Jane Doe"))],
              loading := true, error := .null, dialogOpen := true },
      inFlight := 1 } rfl⟩

/-! ## Theorems: role tables -/

/-- The seven keys of the three role tables. -/
theorem lookup_none_of_not_tag {α : Type} (s : JSString) (a b c d e f g : α)
    (h : s ∉ [lit "admin", lit "superadmin", lit "teacher", lit "student",
              lit "hod", lit "dean", lit "cc"]) :
    List.lookup s [(lit "admin", a), (lit "superadmin", b), (lit "teacher", c),
      (lit "student", d), (lit "hod", e), (lit "dean", f), (lit "cc", g)] = none := by
  simp only [List.mem_cons, List.mem_singleton, List.not_mem_nil, or_false, not_or] at h
  obtain ⟨h1, h2, h3, h4, h5, h6, h7⟩ := h
  simp only [List.lookup, beq_false_of_ne h1, beq_false_of_ne h2, beq_false_of_ne h3,
    beq_false_of_ne h4, beq_false_of_ne h5, beq_false_of_ne h6, beq_false_of_ne h7]

/-- What the claims of the role helpers get right for strings: a string that
is neither one of the seven tags nor a property name of `Object.prototype`
gets the default colour and the default icon. -/
theorem getRole_default_arm (s : JSString)
    (htag : s ∉ [lit "admin", lit "superadmin", lit "teacher", lit "student",
                 lit "hod", lit "dean", lit "cc"])
    (hproto : s ∉ objectPrototypeKeys) :
    getRoleColor (.str s) = .ok (.data (.str (lit "#757575"))) ∧
    getRoleIcon (.str s) = .ok (.element .PersonIcon) := by
  have hc : List.lookup s roleColors = none := lookup_none_of_not_tag s _ _ _ _ _ _ _ htag
  have hi : List.lookup s roleIcons = none := lookup_none_of_not_tag s _ _ _ _ _ _ _ htag
  constructor
  · simp [getRoleColor, toPropertyKey, toStringJS, member, hc, hproto, Ref.truthy, truthy]
  · simp [getRoleIcon, toPropertyKey, toStringJS, member, hi, hproto, Ref.truthy, truthy]

/-- C5 at the failing input: for the tag `"constructor"` the lookup in the
object literal finds the member inherited from `Object.prototype`, which is
truthy, so `getRoleColor` and `getRoleIcon` return that built-in function
instead of the gray `'#757575'` and the person icon. The seven known tags,
`null` and `undefined` behave as claimed. -/
theorem getRole_inherited_member_returned :
    getRoleColor (.str (lit "constructor")) = .ok (.builtin (lit "constructor")) ∧
    getRoleIcon (.str (lit "constructor")) = .ok (.builtin (lit "constructor")) ∧
    getRoleColor (.str (lit "constructor")) ≠ .ok (.data (.str (lit "#757575"))) ∧
    getRoleIcon (.str (lit "constructor")) ≠ .ok (.element .PersonIcon) ∧
    getRoleColor (.str (lit "admin")) = .ok (.data (.str (lit "#d32f2f"))) ∧
    getRoleColor (.str (lit "superadmin")) = .ok (.data (.str (lit "#7b1fa2"))) ∧
    getRoleColor (.str (lit "teacher")) = .ok (.data (.str (lit "#1976d2"))) ∧
    getRoleColor (.str (lit "student")) = .ok (.data (.str (lit "#388e3c"))) ∧
    getRoleColor (.str (lit "hod")) = .ok (.data (.str (lit "#f57c00"))) ∧
    getRoleColor (.str (lit "dean")) = .ok (.data (.str (lit "#5d4037"))) ∧
    getRoleColor (.str (lit "cc")) = .ok (.data (.str (lit "#0097a7"))) ∧
    getRoleIcon (.str (lit "admin")) = .ok (.element .AdminIcon) ∧
    getRoleIcon (.str (lit "superadmin")) = .ok (.element .AdminIcon) ∧
    getRoleIcon (.str (lit "teacher")) = .ok (.element .PersonIcon) ∧
    getRoleIcon (.str (lit "student")) = .ok (.element .SchoolIcon) ∧
    getRoleIcon (.str (lit "hod")) = .ok (.element .SupervisorIcon) ∧
    getRoleIcon (.str (lit "dean")) = .ok (.element .AccountBalanceIcon) ∧
    getRoleIcon (.str (lit "cc")) = .ok (.element .GroupIcon) ∧
    getRoleColor .null = .ok (.data (.str (lit "#757575"))) ∧
    getRoleColor .undefined = .ok (.data (.str (lit "#757575"))) ∧
    getRoleIcon .null = .ok (.element .PersonIcon) ∧
    getRoleIcon .undefined = .ok (.element .PersonIcon) := by
  refine ⟨rfl, rfl, ?_, ?_, rfl, rfl, rfl, rfl, rfl, rfl, rfl, rfl, rfl, rfl, rfl,
    rfl, rfl, rfl, rfl, rfl, rfl, rfl⟩
  · intro h
    have h2 : (Except.ok (Ref.builtin (lit "constructor")) : Except JSError Ref)
        = .ok (.data (.str (lit "#757575"))) := h
    cases h2
  · intro h
    have h2 : (Except.ok (Ref.builtin (lit "constructor")) : Except JSError Ref)
        = .ok (.element .PersonIcon) := h
    cases h2

/-- C6, as the claim states it, fails: on the number `5`, a value that is not
a string, `getRoleLabel` throws a `TypeError` instead of returning the tag;
on `null` it returns `undefined`, not the tag `null`. -/
theorem getRoleLabel_throws_on_number :
    getRoleLabel asciiUpper (.num 5 (by decide)) = .error .typeError ∧
    getRoleLabel asciiUpper .null = .ok (.data .undefined) ∧
    getRoleLabel asciiUpper .null ≠ .ok (.data .null) := by
  refine ⟨rfl, rfl, ?_⟩
  intro h
  have h2 : (Except.ok (Ref.data .undefined) : Except JSError Ref)
      = .ok (.data .null) := h
  cases h2

/-- C6, amended: `getRoleLabel` does not throw on any string, on `null` or on
`undefined`; it maps the seven known tags to their labels, every other
string that is not a property name of `Object.prototype` to the upper-cased
tag, and `null` and `undefined` to `undefined`. -/
theorem getRoleLabel_on_tags (toUpperCase : JSString → JSString) :
    getRoleLabel toUpperCase (.str (lit "admin"))
      = .ok (.data (.str (lit "Administrator"))) ∧
    getRoleLabel toUpperCase (.str (lit "superadmin"))
      = .ok (.data (.str (lit "Super Administrator"))) ∧
    getRoleLabel toUpperCase (.str (lit "teacher"))
      = .ok (.data (.str (lit "Teacher"))) ∧
    getRoleLabel toUpperCase (.str (lit "student"))
      = .ok (.data (.str (lit "Student"))) ∧
    getRoleLabel toUpperCase (.str (lit "hod"))
      = .ok (.data (.str (lit "Head of Department"))) ∧
    getRoleLabel toUpperCase (.str (lit "dean"))
      = .ok (.data (.str (lit "Dean"))) ∧
    getRoleLabel toUpperCase (.str (lit "cc"))
      = .ok (.data (.str (lit "Course Coordinator"))) ∧
    (∀ s : JSString,
      s ∉ [lit "admin", lit "superadmin", lit "teacher", lit "student",
           lit "hod", lit "dean", lit "cc"] →
      s ∉ objectPrototypeKeys →
      getRoleLabel toUpperCase (.str s) = .ok (.data (.str (toUpperCase s)))) ∧
    getRoleLabel toUpperCase .null = .ok (.data .undefined) ∧
    getRoleLabel toUpperCase .undefined = .ok (.data .undefined) ∧
    (∀ s : JSString, ∃ r, getRoleLabel toUpperCase (.str s) = .ok r) := by
  refine ⟨rfl, rfl, rfl, rfl, rfl, rfl, rfl, ?_, rfl, rfl, ?_⟩
  · intro s htag hproto
    have hl : List.lookup s roleLabels = none :=
      lookup_none_of_not_tag s _ _ _ _ _ _ _ htag
    simp [getRoleLabel, toPropertyKey, toStringJS, member, hl, hproto, Ref.truthy, truthy,
      isNullish]
  · intro s
    cases hf : (member roleLabels s).truthy
    · exact ⟨.data (.str (toUpperCase s)), by
        simp [getRoleLabel, toPropertyKey, toStringJS, hf, isNullish]⟩
    · exact ⟨member roleLabels s, by
        simp [getRoleLabel, toPropertyKey, toStringJS, hf]⟩

/-- An unknown tag is upper-cased, and a property name of `Object.prototype`
does not make the function throw. -/
theorem getRoleLabel_on_tags_witness :
    getRoleLabel asciiUpper (.str (lit "registrar"))
      = .ok (.data (.str (lit "REGISTRAR"))) ∧
    (∃ r, getRoleLabel asciiUpper (.str (lit "constructor")) = .ok r) :=
  ⟨(getRoleLabel_on_tags asciiUpper).2.2.2.2.2.2.2.1 (lit "registrar")
      (by decide) (by decide),
   (getRoleLabel_on_tags asciiUpper).2.2.2.2.2.2.2.2.2.2 (lit "constructor")⟩

/-! ## Theorems: initials -/

theorem split_cons_sep (sep : Nat) (cs : JSString) :
    split sep (sep :: cs) = [] :: split sep cs := by
  simp [split]

/-- Splitting never yields the empty list, and a leading code unit that is
not the separator joins the first piece. -/
theorem split_cons_ne (sep c : Nat) (cs : JSString) (h : c ≠ sep) :
    ∃ w ws, split sep cs = w :: ws ∧ split sep (c :: cs) = (c :: w) :: ws := by
  cases hs : split sep cs with
  | nil =>
    exfalso
    cases cs with
    | nil => simp [split] at hs
    | cons d ds =>
      simp only [split] at hs
      split at hs
      · cases hs
      · split at hs <;> cases hs
  | cons w ws =>
    exact ⟨w, ws, rfl, by simp [split, h, hs]⟩

/-- A leading code unit that is not a separator starts the first token. -/
theorem tokens_cons_ne (isSep : Nat → Bool) (c : Nat) (cs : JSString)
    (h : isSep c = false) :
    ∃ t ts, tokens isSep (c :: cs) = (c :: t) :: ts := by
  cases cs with
  | nil => exact ⟨[], [], by simp [tokens, h]⟩
  | cons d ds =>
    cases hd : isSep d with
    | true => exact ⟨[], tokens isSep (d :: ds), by rw [tokens]; simp [h, hd]⟩
    | false =>
      cases hts : tokens isSep (d :: ds) with
      | nil => exact ⟨[], [], by rw [tokens]; simp [h, hd, hts]⟩
      | cons t ts => exact ⟨t, ts, by rw [tokens]; simp [h, hd, hts]⟩

/-- There is no token exactly when every code unit is a space. -/
theorem tokens_eq_nil_iff (s : JSString) :
    (∀ x ∈ s, x = 32) ↔ tokens (fun c => c == 32) s = [] := by
  induction s with
  | nil => simp [tokens]
  | cons d ds ih =>
    by_cases hd : d = 32
    · subst hd
      have ht : tokens (fun c => c == 32) (32 :: ds) = tokens (fun c => c == 32) ds := by
        simp [tokens]
      rw [ht, ← ih]
      simp
    · obtain ⟨t, ts, hts⟩ := tokens_cons_ne (fun c => c == 32) d ds (by simpa using hd)
      rw [hts]
      constructor
      · intro h
        exact absurd (h d (List.mem_cons_self _ _)) hd
      · intro h
        cases h

theorem firsts_cons (w : JSString) (ws : List JSString) :
    ((w :: ws).map charAt0).flatten = charAt0 w ++ (ws.map charAt0).flatten := by
  simp

/-- The first code units of the pieces of `split(' ')` are the first code
units of the space-separated tokens: empty pieces contribute nothing. -/
theorem firsts_split_eq_tokens (s : JSString) :
    ((split 32 s).map charAt0).flatten
        = ((tokens (fun c => c == 32) s).map charAt0).flatten ∧
    (((split 32 s).tail).map charAt0).flatten
        = (match s with
           | [] => []
           | d :: _ =>
             if d = 32 then ((tokens (fun c => c == 32) s).map charAt0).flatten
             else (((tokens (fun c => c == 32) s).tail).map charAt0).flatten) := by
  induction s with
  | nil => simp [split, tokens, charAt0]
  | cons c cs ih =>
    obtain ⟨ih1, ih2⟩ := ih
    by_cases hc : c = 32
    · subst hc
      have ht : tokens (fun c => c == 32) (32 :: cs) = tokens (fun c => c == 32) cs := by
        simp [tokens]
      rw [split_cons_sep, ht]
      refine ⟨?_, ?_⟩
      · rw [firsts_cons, ih1]; simp [charAt0]
      · simpa using ih1
    · obtain ⟨w, ws, hw, hsplit⟩ := split_cons_ne 32 c cs hc
      rw [hsplit]
      rw [hw] at ih2
      simp only [List.tail_cons] at ih2 ⊢
      have key : ((tokens (fun c => c == 32) (c :: cs)).map charAt0).flatten
            = c :: (ws.map charAt0).flatten ∧
          (((tokens (fun c => c == 32) (c :: cs)).tail).map charAt0).flatten
            = (ws.map charAt0).flatten := by
        cases cs with
        | nil =>
          simp only [split] at hw
          cases hw
          simp [tokens, hc, charAt0]
        | cons d ds =>
          simp only at ih2
          by_cases hd : d = 32
          · simp only [hd, if_true] at ih2
            subst hd
            simp [tokens, hc, charAt0] at ih2 ⊢
            exact ih2.symm
          · simp only [hd, if_false] at ih2
            obtain ⟨t, ts, hts⟩ := tokens_cons_ne (fun c => c == 32) d ds (by simpa using hd)
            rw [hts] at ih2
            simp only [List.tail_cons] at ih2
            have : tokens (fun c => c == 32) (c :: d :: ds) = (c :: d :: t) :: ts := by
              rw [tokens]
              simp [hc, hd, hts]
            rw [this]
            simp [charAt0, ih2]
      refine ⟨?_, ?_⟩
      · rw [key.1]; simp [charAt0]
      · simp only [hc, if_false]; exact key.2.symm

theorem getInitials_str_cons (toUpperCase : JSString → JSString) (c : Nat)
    (cs : JSString) :
    getInitials toUpperCase (.str (c :: cs))
      = .ok ((toUpperCase ((split 32 (c :: cs)).map charAt0).flatten).take 2) := by
  simp [getInitials, truthy]

theorem charAt0_eq_nil (w : JSString) : charAt0 w = [] ↔ w = [] := by
  cases w <;> simp [charAt0]

theorem firsts_eq_nil (ws : List JSString) :
    (ws.map charAt0).flatten = [] ↔ ∀ w ∈ ws, w = [] := by
  induction ws with
  | nil => simp
  | cons w ws ih =>
    rw [firsts_cons, List.append_eq_nil, ih, charAt0_eq_nil]
    simp

theorem split_all_sep (sep : Nat) (s : JSString) (h : ∀ c ∈ s, c = sep) :
    ∀ w ∈ split sep s, w = [] := by
  induction s with
  | nil => simp [split]
  | cons c cs ih =>
    have hc : c = sep := h c (List.mem_cons_self _ _)
    subst hc
    rw [split_cons_sep]
    intro w hw
    rcases List.mem_cons.mp hw with h1 | h1
    · exact h1
    · exact ih (fun x hx => h x (List.mem_cons_of_mem _ hx)) w h1

/-- Every piece of `split` is empty only when every code unit is the
separator. -/
theorem all_sep_of_split_empty (sep : Nat) (s : JSString)
    (h : ∀ w ∈ split sep s, w = []) : ∀ c ∈ s, c = sep := by
  induction s with
  | nil => intro c hc; cases hc
  | cons d ds ih =>
    by_cases hd : d = sep
    · subst hd
      rw [split_cons_sep] at h
      intro c hc
      rcases List.mem_cons.mp hc with h1 | h1
      · exact h1
      · exact ih (fun w hw => h w (List.mem_cons_of_mem _ hw)) c h1
    · obtain ⟨w, ws, _, hsplit⟩ := split_cons_ne sep d ds hd
      rw [hsplit] at h
      exact absurd (h (d :: w) (List.mem_cons_self _ _)) (List.cons_ne_nil d w)

/-- C4, as the claim states it, fails: the source splits at the space
character only, so a tab does not separate tokens. For the name
`"Jane\tDoe"` the code returns `"J"`, the reference definition over
whitespace-separated tokens `"JD"`. -/
theorem getInitials_tab_is_no_separator :
    getInitials asciiUpper (.str (lit "Jane\tDoe")) = .ok (lit "J") ∧
    initialsSpec asciiUpper (some (lit "Jane\tDoe")) = lit "JD" ∧
    getInitials asciiUpper (.str (lit "Jane\tDoe"))
      ≠ .ok (initialsSpec asciiUpper (some (lit "Jane\tDoe"))) := by
  refine ⟨rfl, rfl, ?_⟩
  intro h
  have h2 : (Except.ok (lit "J") : Except JSError JSString) = .ok (lit "JD") := h
  simp [lit] at h2

/-- C4, amended: `getInitials` equals the reference definition whose tokens
are separated by the space character U+0020 (other white space does not
separate): `?` for `undefined`, `null` and the empty string, and for every
other string the first two code units of the upper-cased concatenation of
the first code unit of each space-separated token; the result never has more
than two code units. `"Jane Doe"` gives `"JD"`, `"Madonna"` gives `"M"`,
`"ana maria lopez"` gives `"AM"`. -/
theorem getInitials_eq_space_tokens :
    (∀ up : JSString → JSString, getInitials up .undefined = .ok (lit "?")) ∧
    (∀ up : JSString → JSString, getInitials up .null = .ok (lit "?")) ∧
    (∀ up : JSString → JSString, getInitials up (.str []) = .ok (lit "?")) ∧
    (∀ (up : JSString → JSString) (s : JSString),
      getInitials up (.str s) = .ok (initialsOf (fun c => c == 32) up (some s))) ∧
    (∀ (up : JSString → JSString) (name : Option JSString),
      (initialsOf (fun c => c == 32) up name).length ≤ 2) ∧
    getInitials asciiUpper (.str (lit "Jane Doe")) = .ok (lit "JD") ∧
    getInitials asciiUpper (.str (lit "Madonna")) = .ok (lit "M") ∧
    getInitials asciiUpper (.str (lit "ana maria lopez")) = .ok (lit "AM") := by
  refine ⟨fun _ => rfl, fun _ => rfl, fun _ => rfl, ?_, ?_, rfl, rfl, rfl⟩
  · intro up s
    cases s with
    | nil => rfl
    | cons c cs =>
      rw [getInitials_str_cons, (firsts_split_eq_tokens (c :: cs)).1]
      rfl
  · intro up name
    cases name with
    | none => show (lit "?").length ≤ 2; decide
    | some s =>
      cases s with
      | nil => show (lit "?").length ≤ 2; decide
      | cons c cs =>
        show ((up _).take 2).length ≤ 2
        exact List.length_take_le 2 _

/-- C10: for every non-empty name made of space characters only the result
is the empty string, not the placeholder; the result is `?` for `undefined`,
`null` and the empty name, and for every other name it has at most two code
units and is empty exactly when the name has no non-empty space-separated
token, that is, exactly when every code unit of the name is a space, which
is exactly when every piece of `split(' ')` is empty. Here
`toUpperCase` is any function that maps only the empty string to the empty
string, as `String.prototype.toUpperCase` does. -/
theorem getInitials_empty_iff (toUpperCase : JSString → JSString)
    (hupper : ∀ s, toUpperCase s = [] ↔ s = []) :
    (∀ s : JSString, s ≠ [] → (∀ c ∈ s, c = 32) →
      getInitials toUpperCase (.str s) = .ok [] ∧
      getInitials toUpperCase (.str s) ≠ .ok (lit "?")) ∧
    getInitials toUpperCase .undefined = .ok (lit "?") ∧
    getInitials toUpperCase .null = .ok (lit "?") ∧
    getInitials toUpperCase (.str []) = .ok (lit "?") ∧
    (∀ s : JSString, s ≠ [] →
      ∃ r, getInitials toUpperCase (.str s) = .ok r ∧ r.length ≤ 2 ∧
        (r.length = 0 ↔ ∀ w ∈ split 32 s, w = []) ∧
        (r.length = 0 ↔ ∀ c ∈ s, c = 32) ∧
        (r.length = 0 ↔ tokens (fun c => c == 32) s = [])) := by
  have hempty : ∀ x : JSString, (toUpperCase x).take 2 = [] ↔ x = [] := by
    intro x
    rw [← hupper x]
    cases toUpperCase x <;> simp
  refine ⟨?_, rfl, rfl, rfl, ?_⟩
  · intro s hs hall
    cases s with
    | nil => exact absurd rfl hs
    | cons c cs =>
      have hr : getInitials toUpperCase (.str (c :: cs)) = .ok [] := by
        rw [getInitials_str_cons]
        have h1 := (firsts_eq_nil (split 32 (c :: cs))).mpr (split_all_sep 32 _ hall)
        rw [(hempty _).mpr h1]
      refine ⟨hr, ?_⟩
      rw [hr]
      intro h
      have h2 : ([] : JSString) = lit "?" := by injection h
      simp [lit] at h2
  · intro s hs
    cases s with
    | nil => exact absurd rfl hs
    | cons c cs =>
      have h1 : ((toUpperCase ((split 32 (c :: cs)).map charAt0).flatten).take 2).length = 0
          ↔ ∀ w ∈ split 32 (c :: cs), w = [] := by
        rw [List.length_eq_zero, hempty, firsts_eq_nil]
      have h2 : (∀ w ∈ split 32 (c :: cs), w = []) ↔ ∀ x ∈ c :: cs, x = 32 :=
        ⟨all_sep_of_split_empty 32 _, split_all_sep 32 _⟩
      have h3 : (∀ x ∈ c :: cs, x = 32) ↔ tokens (fun c => c == 32) (c :: cs) = [] :=
        tokens_eq_nil_iff (c :: cs)
      exact ⟨_, getInitials_str_cons toUpperCase c cs, List.length_take_le 2 _, h1,
        h1.trans h2, (h1.trans h2).trans h3⟩

/-- A name of three spaces has empty initials; the initials of `"Jane Doe"`
are empty only if all its code units are spaces. -/
theorem getInitials_empty_iff_witness :
    (getInitials asciiUpper (.str (lit "   ")) = .ok [] ∧
      getInitials asciiUpper (.str (lit "   ")) ≠ .ok (lit "?")) ∧
    (∃ r, getInitials asciiUpper (.str (lit "Jane Doe")) = .ok r ∧ r.length ≤ 2 ∧
      (r.length = 0 ↔ ∀ w ∈ split 32 (lit "Jane Doe"), w = []) ∧
      (r.length = 0 ↔ ∀ c ∈ lit "Jane Doe", c = 32) ∧
      (r.length = 0 ↔ tokens (fun c => c == 32) (lit "Jane Doe") = [])) :=
  ⟨(getInitials_empty_iff asciiUpper
      (fun s => by simp [asciiUpper])).1 (lit "   ") (by decide) (by decide),
   (getInitials_empty_iff asciiUpper
      (fun s => by simp [asciiUpper])).2.2.2.2 (lit "Jane Doe") (by decide)⟩

end MyProfile
